import Mathlib

/-!
A verification development for covasim's immunity module
(src/covasim/immunity.py).

The Python source is embedded shallowly:

* float arrays that only carry finite values are modelled over `ℚ`;
* the places where IEEE special values matter (`log10(0) = -inf` inside
  `nab_to_efficacy`, `NaN` dates) are modelled with an explicit extended
  value type `FV` (finite rational, two infinities, NaN) with IEEE-style
  propagation rules, or with `Option` for NaN-able arrays;
* the values of the transcendental kernels (`np.exp`, `np.log10` on
  finite positive arguments, `np.log(2)`) are irrational, so they are
  passed in as abstract kernels (`ℚ → ℚ` arguments); no statement below
  depends on their values;
* randomness (`cvu.sample`, `np.random.choice`, `sc.randround`) is an
  oracle passed in as an argument;
* raised exceptions become `Except` errors;
* numpy in-place array mutation becomes explicit state passing on
  `structure`s of arrays (functions from agent index).
-/

namespace Covasim

/-- Decidable equality of `Except` results, so counterexample evaluations
can be settled by `decide`. -/
instance exceptDecEq {ε α : Type} [DecidableEq ε] [DecidableEq α] :
    DecidableEq (Except ε α) := fun x y =>
  match x, y with
  | .ok a, .ok b =>
      if h : a = b then isTrue (h ▸ rfl) else isFalse (fun hc => h (Except.ok.inj hc))
  | .error e, .error f =>
      if h : e = f then isTrue (h ▸ rfl) else isFalse (fun hc => h (Except.error.inj hc))
  | .ok _, .error _ => isFalse (fun hc => Except.noConfusion hc)
  | .error _, .ok _ => isFalse (fun hc => Except.noConfusion hc)

/-- IEEE-style extended value: a finite rational, plus or minus infinity, or
NaN.  Models the float arithmetic in `nab_to_efficacy` and `check_immunity`,
where `log10(0) = -inf` and saturation at infinities matter. -/
inductive FV where
  | nan : FV
  | pinf : FV
  | ninf : FV
  | fin : ℚ → FV
deriving DecidableEq, Repr

/-- IEEE negation. -/
def fneg : FV → FV
  | .nan => .nan
  | .pinf => .ninf
  | .ninf => .pinf
  | .fin x => .fin (-x)

/-- IEEE addition: NaN propagates, opposite infinities give NaN. -/
def fadd : FV → FV → FV
  | .nan, _ => .nan
  | _, .nan => .nan
  | .pinf, .ninf => .nan
  | .ninf, .pinf => .nan
  | .pinf, _ => .pinf
  | _, .pinf => .pinf
  | .ninf, _ => .ninf
  | _, .ninf => .ninf
  | .fin a, .fin b => .fin (a + b)

/-- IEEE subtraction. -/
def fsub (a b : FV) : FV := fadd a (fneg b)

/-- IEEE multiplication: NaN propagates, `0 * ±inf = NaN`. -/
def fmul : FV → FV → FV
  | .nan, _ => .nan
  | _, .nan => .nan
  | .pinf, .pinf => .pinf
  | .pinf, .ninf => .ninf
  | .ninf, .pinf => .ninf
  | .ninf, .ninf => .pinf
  | .pinf, .fin x => if 0 < x then .pinf else if x < 0 then .ninf else .nan
  | .fin x, .pinf => if 0 < x then .pinf else if x < 0 then .ninf else .nan
  | .ninf, .fin x => if 0 < x then .ninf else if x < 0 then .pinf else .nan
  | .fin x, .ninf => if 0 < x then .ninf else if x < 0 then .pinf else .nan
  | .fin a, .fin b => .fin (a * b)

/-- IEEE division (sufficient for the expressions appearing in the source:
`inf / inf = NaN`, `finite / ±inf = 0`, division by zero gives a signed
infinity; `ℚ` has no signed zero, so `finite / 0` takes the sign of the
numerator). -/
def fdiv : FV → FV → FV
  | .nan, _ => .nan
  | _, .nan => .nan
  | .pinf, .pinf => .nan
  | .pinf, .ninf => .nan
  | .ninf, .pinf => .nan
  | .ninf, .ninf => .nan
  | .pinf, .fin x => if x < 0 then .ninf else .pinf
  | .ninf, .fin x => if x < 0 then .pinf else .ninf
  | .fin _, .pinf => .fin 0
  | .fin _, .ninf => .fin 0
  | .fin a, .fin b =>
      if b = 0 then (if a = 0 then .nan else if 0 < a then .pinf else .ninf)
      else .fin (a / b)

/-- `np.log10` with the finite positive case delegated to an abstract kernel
`lg` (its value there is irrational and nothing below depends on it):
`log10(0) = -inf`, `log10` of a negative number is NaN, as in numpy. -/
def flog10 (lg : ℚ → ℚ) : FV → FV
  | .nan => .nan
  | .pinf => .pinf
  | .ninf => .nan
  | .fin x => if x < 0 then .nan else if x = 0 then .ninf else .fin (lg x)

/-- `np.exp` with the finite case delegated to an abstract kernel `ex`:
`exp(-inf) = 0`, `exp(inf) = inf`. -/
def fexp (ex : ℚ → ℚ) : FV → FV
  | .nan => .nan
  | .pinf => .pinf
  | .ninf => .fin 0
  | .fin x => .fin (ex x)

/-- The `nab_eff` parameter dictionary passed to `nab_to_efficacy`: a
sub-dictionary `slope` / `n_50` for the susceptibility axis, and a plain
scalar fill value for each of the symptomatic and severe axes. -/
structure NabEff where
  sus_slope : ℚ
  sus_n50 : ℚ
  symp : FV
  sev : FV
deriving DecidableEq, Repr

/-- Pointwise logistic transform for the susceptibility axis
(immunity.py line 280):
`1 / (1 + exp(-slope * (log10(nab) - log10(n_50))))`. -/
def susEfficacy (lg ex : ℚ → ℚ) (slope n50 : ℚ) (nab : FV) : FV :=
  fdiv (.fin 1)
    (fadd (.fin 1)
      (fexp ex (fmul (fneg (.fin slope)) (fsub (flog10 lg nab) (flog10 lg (.fin n50))))))

/-- The constant used by `np.full(len(nab), fill_value=args)` on the two
non-susceptibility axes. -/
def axisFill (args : NabEff) (ax : String) : FV :=
  if ax = "symp" then args.symp else args.sev

/-- Value-level core of `nab_to_efficacy` (the dispatch after the axis
check, immunity.py lines 277-283): for `'sus'` the logistic transform is
mapped over the nab array, otherwise the axis parameter is broadcast. -/
def nabToEfficacyVal (lg ex : ℚ → ℚ) (nab : List FV) (ax : String) (args : NabEff) :
    List FV :=
  if ax = "sus" then nab.map (susEfficacy lg ex args.sus_slope args.sus_n50)
  else List.replicate nab.length (axisFill args ax)

/-- `nab_to_efficacy` (immunity.py lines 259-283): rejects an axis outside
`sus` / `symp` / `sev` with a ValueError, else dispatches. -/
def nab_to_efficacy (lg ex : ℚ → ℚ) (nab : List FV) (ax : String) (args : NabEff) :
    Except String (List FV) :=
  if ax ≠ "sus" ∧ ax ≠ "symp" ∧ ax ≠ "sev" then
    .error ("Choice " ++ ax ++ " not in list of choices")
  else
    .ok (nabToEfficacyVal lg ex nab ax args)

/-- The slice of the agent population state touched by `init_nab` and
`check_nab`.  NaN-able float arrays are `Option`-valued (`none` = NaN);
`nab_kin` is the precomputed kinetics table `people.pars['nab_kin']`,
`nab_boost` is `people.pars['nab_boost']`. -/
structure PeopleNab where
  nab : ℕ → Option ℚ
  init_nab : ℕ → Option ℚ
  prior_symptoms : ℕ → ℚ
  nab_boost : ℚ
  date_recovered : ℕ → Option ℤ
  date_vaccinated : ℕ → Option ℤ
  nab_kin : List ℚ

/-- Fancy-indexed numpy assignment `arr[index_list] = value_list`: apply the
(index, value) writes in order, later writes winning. -/
def writeList (f : ℕ → Option ℚ) (ws : List (ℕ × Option ℚ)) : ℕ → Option ℚ :=
  ws.foldl (fun g w => fun a => if a = w.1 then w.2 else g a) f

/-- `init_nab` (immunity.py lines 187-236).  The RNG is an oracle: `draws k`
is the `k`-th sample from `people.pars['nab_init']` and `vaccDraws k` the
`k`-th sample from `vacc_info['nab_init']`; `pow2` models the float function
`2**x` on the sampled exponents (irrational, so abstract).  `vaccBoost` is
`vacc_info['nab_boost']`.  Prior-nab membership is decided by the *current*
`nab` array being defined; people with no prior nab get a fresh draw
(scaled by the binary `prior_symptoms` indicator for natural infection),
people with a prior nab get their peak `init_nab` multiplied by the boost
factor.  Only `init_nab` is written.  (`np.setdiff1d` returns the
no-prior set sorted and deduplicated; it is modelled as a filter over
`inds`, which coincides for sorted duplicate-free target lists such as the
`cvu.idefined`/`cvu.true` outputs the simulation passes in.) -/
def init_nab (draws vaccDraws : ℕ → ℚ) (pow2 : ℚ → ℚ) (p : PeopleNab)
    (inds : List ℕ) (prior_inf : Bool) (vaccBoost : ℚ) : PeopleNab :=
  let prior_nab_inds := inds.filter (fun a => (p.nab a).isSome)
  let no_prior_nab_inds := inds.filter (fun a => (p.nab a).isNone)
  let nab_boost := if prior_inf then p.nab_boost else vaccBoost
  let d := if prior_inf then draws else vaccDraws
  let fresh : List (ℕ × Option ℚ) :=
    (List.range no_prior_nab_inds.length).map (fun k =>
      let a := no_prior_nab_inds.getD k 0
      (a, some (if prior_inf then pow2 (d k) * p.prior_symptoms a else pow2 (d k))))
  let boosted : List (ℕ × Option ℚ) :=
    prior_nab_inds.map (fun a => (a, (p.init_nab a).map (fun v => v * nab_boost)))
  { p with init_nab := writeList (writeList p.init_nab fresh) boosted }

/-- The sentinel produced by `np.full(len(inds), np.nan, dtype=cvd.default_int)`
in `check_nab`: NaN cast (unsafe cast) to covasim's default 32-bit integer
type yields `INT32_MIN`. -/
def nanAsInt : ℤ := -(2 ^ 31)

/-- The net `t_since_boost` entry for one targeted agent after the three
masked writes in `check_nab` (lines 248-251): recovered-only agents use
`t - date_recovered`, vaccinated-only agents `t - date_vaccinated`, agents
with both use the maximum of the two dates, and agents with neither keep
the NaN-as-integer fill value. -/
def tSince (t : ℤ) (p : PeopleNab) (a : ℕ) : ℤ :=
  match p.date_recovered a, p.date_vaccinated a with
  | some r, some v => t - max r v
  | some r, none => t - r
  | none, some v => t - v
  | none, none => nanAsInt

/-- numpy integer indexing `nab_kin[i]`: valid when `-len ≤ i < len`, with
negative indices wrapping from the end; anything else is an IndexError
(`none` here). -/
def kinIndex (kin : List ℚ) (i : ℤ) : Option ℚ :=
  if 0 ≤ i ∧ i < kin.length then kin.get? i.toNat
  else if -(kin.length : ℤ) ≤ i ∧ i < 0 then kin.get? ((kin.length : ℤ) + i).toNat
  else none

/-- `check_nab` (immunity.py lines 239-256): computes `t_since_boost` for
every targeted agent, then evaluates `nab_kin[t_since_boost]` for the whole
target vector — any out-of-bounds entry raises IndexError for the whole call,
writing nothing — and finally sets `nab = nab_kin[t_since_boost] * init_nab`
for the targeted agents (NaN `init_nab` gives NaN). -/
def check_nab (t : ℤ) (p : PeopleNab) (inds : List ℕ) : Except String PeopleNab :=
  match inds.mapM (fun a => kinIndex p.nab_kin (tSince t p a)) with
  | none => .error "IndexError"
  | some kvals =>
      .ok { p with nab := writeList p.nab ((inds.zip kvals).map
              (fun ak => (ak.1, (p.init_nab ak.1).map (fun x => ak.2 * x)))) }

/-- The nab array observable after a `check_nab` call: the updated array on
normal return, the original (no write happened) when the call raised. -/
def nabAfter (t : ℤ) (p : PeopleNab) (inds : List ℕ) : ℕ → Option ℚ :=
  match check_nab t p inds with
  | .ok p' => p'.nab
  | .error _ => p.nab

/-- The slice of the agent population state touched by `check_immunity`. -/
structure PeopleImm where
  npop : ℕ
  t : ℤ
  date_recovered : ℕ → Option ℤ
  recovered_strain : ℕ → Option ℕ
  vaccinated : ℕ → Bool
  susceptible : ℕ → Bool
  nab : ℕ → FV
  sus_imm : ℕ → ℕ → FV
  symp_imm : ℕ → ℕ → FV
  sev_imm : ℕ → ℕ → FV

/-- `people.pars['immunity']`: the strain-by-strain susceptibility matrix and
the per-strain symptomatic / severe progression-scaling vectors. -/
structure ImmPars where
  sus : ℕ → ℕ → ℚ
  symp : ℕ → ℚ
  sev : ℕ → ℚ

/-- Which of the three per-strain efficacy arrays a write targets. -/
inductive ImmField where
  | sus : ImmField
  | symp : ImmField
  | sev : ImmField
deriving DecidableEq, Repr

/-- The source block of `check_immunity` that emitted a write: the three
guarded blocks of the susceptibility branch (lines 370-386) and the two
guarded blocks of the disease-severity branch (vaccinated, lines 393-398;
previously-recovered, lines 400-403). -/
inductive ImmBlock where
  | susVacc : ImmBlock
  | susInfSame : ImmBlock
  | susInfDiff : ImmBlock
  | infVacc : ImmBlock
  | infRec : ImmBlock
deriving DecidableEq, Repr

/-- One elementwise write `people.<field>_imm[strain, agent] = value`,
tagged with the block that emitted it. -/
structure ImmWrite where
  target : ImmField
  strain : ℕ
  agent : ℕ
  value : FV
  block : ImmBlock
deriving DecidableEq, Repr

/-- Apply one write to the state. -/
def applyWrite (p : PeopleImm) (w : ImmWrite) : PeopleImm :=
  match w.target with
  | .sus => { p with sus_imm := fun s a => if w.strain = s ∧ w.agent = a then w.value else p.sus_imm s a }
  | .symp => { p with symp_imm := fun s a => if w.strain = s ∧ w.agent = a then w.value else p.symp_imm s a }
  | .sev => { p with sev_imm := fun s a => if w.strain = s ∧ w.agent = a then w.value else p.sev_imm s a }

/-- Apply a write trace left to right (program order). -/
def applyTrace (p : PeopleImm) (tr : List ImmWrite) : PeopleImm :=
  tr.foldl applyWrite p

/-- Read one of the three efficacy arrays by field tag. -/
def getField (p : PeopleImm) : ImmField → ℕ → ℕ → FV
  | .sus => p.sus_imm
  | .symp => p.symp_imm
  | .sev => p.sev_imm

/-- `people.t >= people.date_recovered` for one agent (NaN compares false). -/
def wasInfP (p : PeopleImm) (a : ℕ) : Bool :=
  match p.date_recovered a with
  | some r => decide (r ≤ p.t)
  | none => false

/-- `(people.recovered_strain == strain) & (people.t >= date_rec)` for one
agent (NaN compares false on both factors). -/
def wasInfSameP (p : PeopleImm) (strain : ℕ) (a : ℕ) : Bool :=
  (match p.recovered_strain a with
   | some s => decide (s = strain)
   | none => false) && wasInfP p a

/-- `cvu.true(...)` over a whole-population boolean vector: the sorted list
of agent indices satisfying the predicate. -/
def agentsWhere (p : PeopleImm) (f : ℕ → Bool) : List ℕ :=
  (List.range p.npop).filter f

/-- The prior strain used by the cross-immunity block for one agent
(defined whenever the agent is in that block in practice; NaN is read as 0
here, a corner the claims never exercise). -/
def priorStrainOf (p : PeopleImm) (a : ℕ) : ℕ :=
  (p.recovered_strain a).getD 0

/-- Zip a block's agent list with the efficacy values computed for it and
emit the elementwise writes in order. -/
def mkWrites (f : ImmField) (strain : ℕ) (b : ImmBlock) (agents : List ℕ)
    (vals : List FV) : List ImmWrite :=
  (agents.zip vals).map (fun av => ⟨f, strain, av.1, av.2, b⟩)

/-- The sequence of writes `check_immunity` (immunity.py lines 331-405)
performs, in program order.  `vacc_scale` is `vacc_strain[strain]`, `vxArgs`
is `vacc_info['nab_eff']` (used only by the susceptible-and-vaccinated
block), `args` is `people.pars['nab_eff']`.

Susceptibility branch (`sus = true`): three disjoint agent sets — the
vaccinated-without-prior-infection, the same-strain-recovered and the
different-strain-recovered susceptibles — each written once to
`sus_imm[strain]`.  The source iterates the third set grouped by unique
prior strain; each agent is written exactly once with the scaling of its
own prior strain, which is what is emitted here agent by agent.

Disease branch (`sus = false`): the vaccinated subset of `inds` is written
to `symp_imm[strain]` then `sev_imm[strain]`, and *afterwards* the
previously-recovered subset of `inds` is written to both, so the recovered
writes come last in program order. -/
def checkImmunityTrace (lg ex : ℚ → ℚ) (p : PeopleImm) (strain : ℕ) (sus : Bool)
    (inds : List ℕ) (imm : ImmPars) (args vxArgs : NabEff) (vacc_scale : ℚ) :
    List ImmWrite :=
  if sus then
    let is_sus_vacc := agentsWhere p
      (fun a => p.susceptible a && p.vaccinated a && !wasInfP p a)
    let is_sus_was_inf_same := agentsWhere p
      (fun a => p.susceptible a && wasInfSameP p strain a)
    let is_sus_was_inf_diff := agentsWhere p
      (fun a => p.susceptible a && (wasInfP p a && !wasInfSameP p strain a))
    mkWrites .sus strain .susVacc is_sus_vacc
      (nabToEfficacyVal lg ex
        (is_sus_vacc.map (fun a => fmul (p.nab a) (.fin vacc_scale))) "sus" vxArgs)
    ++ mkWrites .sus strain .susInfSame is_sus_was_inf_same
      (nabToEfficacyVal lg ex
        (is_sus_was_inf_same.map (fun a => fmul (p.nab a) (.fin (imm.sus strain strain)))) "sus" args)
    ++ mkWrites .sus strain .susInfDiff is_sus_was_inf_diff
      (nabToEfficacyVal lg ex
        (is_sus_was_inf_diff.map
          (fun a => fmul (p.nab a) (.fin (imm.sus strain (priorStrainOf p a))))) "sus" args)
  else
    let is_inf_vacc := agentsWhere p (fun a => decide (a ∈ inds) && p.vaccinated a)
    let was_inf := agentsWhere p (fun a => decide (a ∈ inds) && wasInfP p a)
    mkWrites .symp strain .infVacc is_inf_vacc
      (nabToEfficacyVal lg ex
        (is_inf_vacc.map (fun a => fmul (fmul (p.nab a) (.fin vacc_scale)) (.fin (imm.symp strain)))) "symp" args)
    ++ mkWrites .sev strain .infVacc is_inf_vacc
      (nabToEfficacyVal lg ex
        (is_inf_vacc.map (fun a => fmul (fmul (p.nab a) (.fin vacc_scale)) (.fin (imm.sev strain)))) "sev" args)
    ++ mkWrites .symp strain .infRec was_inf
      (nabToEfficacyVal lg ex
        (was_inf.map (fun a => fmul (p.nab a) (.fin (imm.symp strain)))) "symp" args)
    ++ mkWrites .sev strain .infRec was_inf
      (nabToEfficacyVal lg ex
        (was_inf.map (fun a => fmul (p.nab a) (.fin (imm.sev strain)))) "sev" args)

/-- `check_immunity`: the state after applying all its writes in order. -/
def check_immunity (lg ex : ℚ → ℚ) (p : PeopleImm) (strain : ℕ) (sus : Bool)
    (inds : List ℕ) (imm : ImmPars) (args vxArgs : NabEff) (vacc_scale : ℚ) :
    PeopleImm :=
  applyTrace p (checkImmunityTrace lg ex p strain sus inds imm args vxArgs vacc_scale)

/-- The last write a trace makes to one cell (field, strain, agent). -/
def lastWriteTo (tr : List ImmWrite) (f : ImmField) (s a : ℕ) : Option ImmWrite :=
  tr.reverse.find?
    (fun w => decide (w.target = f) && decide (w.strain = s) && decide (w.agent = a))

/-- The preset cross-immunity table `cvpar.get_cross_immunity()` (its
contents live in parameters.py, outside this module), as a nested
association list: outer key = prior strain label of the row, inner key =
challenging strain label.  Keys are assumed unique, as in a Python dict. -/
abbrev CrossTable := List (String × List (String × ℚ))

/-- `cross_immunity.keys()`. -/
def ctKeys (tab : CrossTable) : List String := tab.map Prod.fst

/-- `cross_immunity[x][y]`; `none` is a KeyError on the inner dict. -/
def ctLookup (tab : CrossTable) (x y : String) : Option ℚ :=
  (tab.lookup x).bind (fun inner => inner.lookup y)

/-- The susceptibility matrix as first initialized by `init_immunity`
(lines 311-312): `np.full((ts, ts), cross_immunity)` then
`np.fill_diagonal(..., 1)`. -/
def initSus (cross : ℚ) : ℕ → ℕ → ℚ :=
  fun j i => if j = i then 1 else cross

/-- One iteration of the double loop of `init_immunity` (lines 318-322): if
`i != j` and both circulating labels are keys of the preset table, overwrite
entry `[j][i]` with `cross_immunity[cs j][cs i]` (a missing inner key is a
KeyError); otherwise leave the matrix alone. -/
def crossStep (tab : CrossTable) (cs : ℕ → String) (i : ℕ) (M : ℕ → ℕ → ℚ)
    (j : ℕ) : Except String (ℕ → ℕ → ℚ) :=
  if i ≠ j ∧ cs i ∈ ctKeys tab ∧ cs j ∈ ctKeys tab then
    match ctLookup tab (cs j) (cs i) with
    | some v => .ok (fun j' i' => if j' = j ∧ i' = i then v else M j' i')
    | none => .error "KeyError"
  else .ok M

/-- The susceptibility matrix built by `init_immunity` for `ts` active
strains with circulating labels `cs` and configured default `cross`
(`sim['cross_immunity']`): the double loop over ordered pairs applied to the
default-initialized matrix. -/
def buildSusMatrix (ts : ℕ) (cross : ℚ) (tab : CrossTable) (cs : ℕ → String) :
    Except String (ℕ → ℕ → ℚ) :=
  (List.range ts).foldlM
    (fun M i => (List.range ts).foldlM (crossStep tab cs i) M) (initSus cross)

/-- A Python value appearing in a parameter dict. -/
inductive PyVal where
  | none : PyVal
  | str : String → PyVal
  | num : ℚ → PyVal
deriving DecidableEq, Repr

/-- A Python parameter dict (keys assumed unique). -/
abbrev Pars := List (String × PyVal)

/-- A raised Python exception. -/
inductive PyErr where
  | valueError : String → PyErr
  | typeError : String → PyErr
  | keyError : String → PyErr
  | notImplementedError : String → PyErr
  | unboundLocalError : String → PyErr
deriving DecidableEq, Repr

/-- Extract a numeric keyword argument for a `**pars` call; a missing
required argument is a TypeError. -/
def getNum (pars : Pars) (key : String) : Except PyErr ℚ :=
  match pars.lookup key with
  | some (.num q) => .ok q
  | some _ => .error (.typeError ("bad value for argument " ++ key))
  | Option.none => .error (.typeError ("missing required argument " ++ key))

/-- `keys()` of a parameter dict. -/
def keysOf (pars : Pars) : List String := pars.map Prod.fst

/-- A `**pars` call rejects unexpected keyword arguments with a TypeError. -/
def checkKeys (pars : Pars) (allowed : List String) : Except PyErr Unit :=
  if (keysOf pars).all (fun k => decide (k ∈ allowed)) then .ok ()
  else .error (.typeError "unexpected keyword argument")

/-- Abstract kernels for the transcendental float functions used by the
decay generators: `exp` models `np.exp` on finite arguments and `ln2`
models `np.log(2)`.  The claims below concern the generators' shapes and
the dispatch, never these kernels' values. -/
structure TranscOps where
  exp : ℚ → ℚ
  ln2 : ℚ

/-- `nab_decay` (immunity.py lines 457-484): simple exponential decay
`exp(-t*decay_rate1)` up to `decay_time1`, then the compound form
`exp(-t * (decay_rate1 * exp(-(t - decay_time1) * decay_rate2)))`.  The
source builds the two pieces from `cvu.true(t <= decay_time1)` and its
complement and concatenates; since `t = arange(length)` is sorted, that is
the same as this pointwise dispatch. -/
def nab_decay (ops : TranscOps) (length : ℕ) (decay_rate1 decay_time1 decay_rate2 : ℚ) :
    List ℚ :=
  (List.range length).map (fun (t : ℕ) =>
    if (t : ℚ) ≤ decay_time1 then ops.exp (-((t : ℚ) * decay_rate1))
    else ops.exp (-((t : ℚ) * (decay_rate1 * ops.exp (-(((t : ℚ) - decay_time1) * decay_rate2))))))

/-- `linear_growth` (lines 511-514): `slope * t`. -/
def linear_growth (length : ℕ) (slope : ℚ) : List ℚ :=
  (List.range length).map (fun (t : ℕ) => slope * (t : ℚ))

/-- `linear_decay` (lines 503-508): `init_val - slope * t`, floored at 0 by
`np.maximum(result, 0)`. -/
def linear_decay (length : ℕ) (init_val slope : ℚ) : List ℚ :=
  (List.range length).map (fun (t : ℕ) => max (init_val - slope * (t : ℚ)) 0)

/-- `exp_decay` (lines 487-500); `half_life = none` models NaN (rate 0, no
decay); with a `delay`, a linear-growth ramp of that length reaching
`init_val` precedes the decay. -/
def exp_decay (ops : TranscOps) (length : ℕ) (init_val : ℚ) (half_life : Option ℚ)
    (delay : Option ℕ) : List ℚ :=
  let decay_rate := match half_life with
    | some h => ops.ln2 / h
    | Option.none => 0
  match delay with
  | some d =>
      linear_growth d (init_val / d)
        ++ (List.range (length - d)).map (fun (t : ℕ) => init_val * ops.exp (-(decay_rate * (t : ℚ))))
  | Option.none =>
      (List.range length).map (fun (t : ℕ) => init_val * ops.exp (-(decay_rate * (t : ℚ))))

/-- How a parameter value prints inside the unknown-form error message. -/
def pyValStr : PyVal → String
  | PyVal.none => "None"
  | .str s => s
  | .num _ => "number"

/-- `precompute_waning` (immunity.py lines 411-454): `pars.pop('form')`
raises KeyError when the key is absent; a present `None` or `'nab_decay'`
selects the `nab_decay` generator; `'exp_decay'` first reads
`pars['half_life']` (KeyError when absent) and turns `None` into NaN;
`'linear_growth'` / `'linear_decay'` call the linear generators; any other
form raises NotImplementedError whose message lists the four valid
choices. -/
def precompute_waning (ops : TranscOps) (length : ℕ) (pars : Pars) :
    Except PyErr (List ℚ) :=
  match pars.lookup "form" with
  | Option.none => .error (.keyError "form")
  | some form =>
    let rest := pars.filter (fun kv => kv.1 ≠ "form")
    if form = PyVal.none ∨ form = PyVal.str "nab_decay" then do
      checkKeys rest ["decay_rate1", "decay_time1", "decay_rate2"]
      let r1 ← getNum rest "decay_rate1"
      let t1 ← getNum rest "decay_time1"
      let r2 ← getNum rest "decay_rate2"
      return nab_decay ops length r1 t1 r2
    else if form = PyVal.str "exp_decay" then do
      let hl : Option ℚ ←
        match rest.lookup "half_life" with
        | Option.none => Except.error (PyErr.keyError "half_life")
        | some PyVal.none => Except.ok Option.none
        | some (PyVal.num q) => Except.ok (some q)
        | some _ => Except.error (PyErr.typeError "bad value for argument half_life")
      checkKeys rest ["init_val", "half_life", "delay"]
      let iv ← getNum rest "init_val"
      let d : Option ℕ ←
        match rest.lookup "delay" with
        | Option.none => Except.ok Option.none
        | some PyVal.none => Except.ok Option.none
        | some (PyVal.num q) => Except.ok (some q.num.toNat)
        | some _ => Except.error (PyErr.typeError "bad value for argument delay")
      return exp_decay ops length iv hl d
    else if form = PyVal.str "linear_growth" then do
      checkKeys rest ["slope"]
      let s ← getNum rest "slope"
      return linear_growth length s
    else if form = PyVal.str "linear_decay" then do
      checkKeys rest ["init_val", "slope"]
      let iv ← getNum rest "init_val"
      let s ← getNum rest "slope"
      return linear_decay length iv s
    else
      .error (.notImplementedError ("The selected functional form " ++ pyValStr form
        ++ " is not implemented; choices are: nab_decay, exp_decay, linear_growth, linear_decay"))

/-- A value passed as the `strain` / `vaccine` argument of the catalog
constructors: a preset name, a parameter dict, or something else
(`None`, an integer, ...). -/
inductive SpecArg where
  | pystr : String → SpecArg
  | pydict : Pars → SpecArg
  | pyNone : SpecArg
  | pyint : ℤ → SpecArg
deriving DecidableEq, Repr

/-- How `type(x)` renders in an f-string, without Python's quoting. -/
def typeName : SpecArg → String
  | .pystr _ => "str"
  | .pydict _ => "dict"
  | .pyNone => "NoneType"
  | .pyint _ => "int"

/-- The strain-name normalization of `parse_strain_pars` (lines 56-58):
lower-case, then strip `.`, spaces, `strain`, `variant`, `voc`. -/
def normStrainName (s : String) : String :=
  [".", " ", "strain", "variant", "voc"].foldl
    (fun acc txt => acc.replace txt "") s.toLower

/-- The vaccine-name normalization of `parse_vaccine_pars` (lines 157-159):
lower-case, then strip `.`, spaces, `&`, `-`, `vaccine`. -/
def normVaccineName (s : String) : String :=
  [".", " ", "&", "-", "vaccine"].foldl
    (fun acc txt => acc.replace txt "") s.toLower

/-- `Strain.parse_strain_pars` (immunity.py lines 46-81).  The preset
catalog (`cvpar.get_strain_choices` / `get_strain_pars`, in parameters.py
outside this module) is abstracted as the `mapping` / `presets` arguments
and `choices` stands for the joined `choicestr` text.  Returns the resolved
(label, parameter dict) pair, or the raised exception.  In the final `else`
branch the source interpolates the local `choicestr` into its error
message, but `choicestr` is only assigned inside the string branch, so
Python raises UnboundLocalError while building the message and the intended
ValueError is never constructed; no parameter set is stored on any error
path (`self.p` is only assigned after the branch). -/
def parse_strain_pars (mapping : List (String × String))
    (presets : List (String × Pars)) (choices : String)
    (strain : SpecArg) (label : Option String) : Except PyErr (String × Pars) :=
  match strain with
  | .pystr s =>
    let normstrain := normStrainName s
    match mapping.lookup normstrain with
    | some canonical =>
      match presets.lookup canonical with
      | some strain_pars => .ok (label.getD canonical, strain_pars)
      | Option.none => .error (.keyError canonical)
    | Option.none =>
      .error (.notImplementedError ("The selected variant " ++ s
        ++ " is not implemented; choices are:\n" ++ choices))
  | .pydict d => .ok (label.getD "Custom strain", d)
  | _ => .error (.unboundLocalError "choicestr")

/-- `sc.mergedicts(a, b)`: entries of both, `b` winning on duplicate keys. -/
def mergeDicts (a b : Pars) : Pars :=
  a.filter (fun kv => (b.lookup kv.1).isNone) ++ b

/-- `Vaccine.parse_vaccine_pars` (immunity.py lines 146-182); preset
catalogs abstracted as for strains.  Unlike the strain path, the final
`else` branch's message uses no undefined local, so it raises the intended
ValueError. -/
def parse_vaccine_pars (mapping : List (String × String))
    (strainPars dosePars : List (String × Pars)) (choices : String)
    (vaccine : SpecArg) (label : Option String) : Except PyErr (String × Pars) :=
  match vaccine with
  | .pystr s =>
    let normvacc := normVaccineName s
    match mapping.lookup normvacc with
    | some canonical =>
      match strainPars.lookup canonical, dosePars.lookup canonical with
      | some sp, some dp => .ok (label.getD canonical, mergeDicts sp dp)
      | _, _ => .error (.keyError canonical)
    | Option.none =>
      .error (.notImplementedError ("The selected vaccine " ++ s
        ++ " is not implemented; choices are:\n" ++ choices))
  | .pydict d => .ok (label.getD "Custom vaccine", d)
  | other =>
    .error (.valueError ("Could not understand type " ++ typeName other
      ++ ", please specify as a string indexing a predefined vaccine or a dict."))

/-- Modelled from the spec: `cvi.find_day` (interventions.py, not under
src/) — it returns one entry per configured introduction day matching the
current day `t`, so the `apply` loop body runs once per matching entry. -/
def find_day (days : List ℤ) (t : ℤ) : List ℕ :=
  (List.range days.length).filter (fun k => days.getD k 0 = t)

/-- `sc.randround(x)`: stochastic rounding `floor(x + u)` for a uniform
draw `u ∈ [0, 1)` supplied by the oracle. -/
def randround (x u : ℚ) : ℤ := ⌊x + u⌋

/-- `np.random.choice(arr, n)` with the *default* `replace=True`: each of
the `n` picks is an independent uniform index into `arr` (supplied by the
`picks` oracle), so the same element can be chosen more than once; an empty
`arr` with `n > 0` is a ValueError. -/
def npRandomChoice (arr : List ℕ) (n : ℕ) (picks : ℕ → ℕ) :
    Except String (List ℕ) :=
  if arr.isEmpty ∧ n ≠ 0 then .error "ValueError"
  else .ok ((List.range n).map (fun k => arr.getD (picks k % arr.length) 0))

/-- `Strain.apply` (immunity.py lines 102-108): once per configured
introduction-day entry matching `t`, compute the currently susceptible
agents, draw the stochastically rounded import count
`randround(n_imports / rescale_vec[t])`, sample that many importation
targets with `np.random.choice(susceptible_inds, n_imports)` and call
`people.infect` tagged with this strain's `index`.  Returns the list of
(importation indices, strain index) arguments of the emitted `infect`
calls; `us k` / `picks k` are the RNG draws of loop iteration `k`. -/
def strainApply (days : List ℤ) (n_imports : ℕ) (index : ℕ) (t : ℤ)
    (rescale : ℚ) (susceptible_inds : List ℕ) (us : ℕ → ℚ)
    (picks : ℕ → ℕ → ℕ) : Except String (List (List ℕ × ℕ)) :=
  (find_day days t).mapM (fun k =>
    (npRandomChoice susceptible_inds
        (randround ((n_imports : ℚ) / rescale) (us k)).toNat (picks k)).map
      (fun importation_inds => (importation_inds, index)))

/-! Concrete example states used by the theorems below. -/

/-- Two agents: agent 0 recovered on day 0 with peak nab 1, agent 1 with no
immunity-conferring event at all (both dates NaN). -/
def pC2 : PeopleNab where
  nab := fun _ => Option.none
  init_nab := fun a => if a = 0 then some 1 else Option.none
  prior_symptoms := fun _ => 1
  nab_boost := 2
  date_recovered := fun a => if a = 0 then some 0 else Option.none
  date_vaccinated := fun _ => Option.none
  nab_kin := [1, 9/10, 4/5]

/-- A fresh agent: no current nab, no peak nab, symptomatic prior
indicator 1, natural-infection boost factor 2. -/
def pC6 : PeopleNab where
  nab := fun _ => Option.none
  init_nab := fun _ => Option.none
  prior_symptoms := fun _ => 1
  nab_boost := 2
  date_recovered := fun _ => Option.none
  date_vaccinated := fun _ => Option.none
  nab_kin := [1]

/-- An agent with a defined current nab and peak nab 2, boost factor 3. -/
def pC6b : PeopleNab where
  nab := fun _ => some 1
  init_nab := fun _ => some 2
  prior_symptoms := fun _ => 1
  nab_boost := 3
  date_recovered := fun _ => some 0
  date_vaccinated := fun _ => Option.none
  nab_kin := [1]

/-- A model of the float `2**x` agreeing with it at the two sampled
exponents 3 and 1 used in the reinfection example. -/
def pow2C6 : ℚ → ℚ := fun x => if x = 3 then 8 else 2

/-- One agent who is simultaneously vaccinated and previously recovered
(recovered from strain 0 on day 0, now day 5) with current nab 1. -/
def pC1 : PeopleImm where
  npop := 1
  t := 5
  date_recovered := fun _ => some 0
  recovered_strain := fun _ => some 0
  vaccinated := fun _ => true
  susceptible := fun _ => false
  nab := fun _ => FV.fin 1
  sus_imm := fun _ _ => FV.fin 0
  symp_imm := fun _ _ => FV.fin 0
  sev_imm := fun _ _ => FV.fin 0

/-- Immunity parameters with all scalings 1. -/
def immC1 : ImmPars where
  sus := fun _ _ => 1
  symp := fun _ => 1
  sev := fun _ => 1

/-- nab_eff parameters with distinct symp / sev fill values. -/
def argsC1 : NabEff where
  sus_slope := 1
  sus_n50 := 1
  symp := FV.fin (1/2)
  sev := FV.fin (1/3)

/-- A two-strain cross-immunity preset covering `wild` and `b117`. -/
def tabC8 : CrossTable :=
  [("wild", [("wild", 1), ("b117", 1/2)]), ("b117", [("wild", 1/10), ("b117", 1)])]

/-- Circulating labels: strain 0 is `wild`, everything else a custom label
absent from the preset table. -/
def csC8 : ℕ → String := fun n => if n = 0 then "wild" else "custom"

/-- The susceptibility matrix the example build produces. -/
def MC8 : ℕ → ℕ → ℚ :=
  (buildSusMatrix 2 (1/3) tabC8 csC8).toOption.getD (initSus (1/3))

/-- The sequence `[10, 9, ..., 1, 0, ..., 0]` of length 100 from the spec's
linear-decay example. -/
def lin10 : List ℚ :=
  [10, 9, 8, 7, 6, 5, 4, 3, 2, 1] ++ List.replicate 90 0

/-- A trivial kernel instance (identity exp, ln2 = 1); the dispatch theorems
hold for every kernel, this one only feeds witnesses. -/
def opsId : TranscOps where
  exp := id
  ln2 := 1

/-! ## Theorems -/

/-! Small computation lemmas for the extended-value arithmetic. -/

theorem fadd_ninf_fin (x : ℚ) : fadd .ninf (.fin x) = .ninf := rfl

theorem fneg_fin (x : ℚ) : fneg (.fin x) = .fin (-x) := rfl

theorem fsub_ninf_fin (x : ℚ) : fsub .ninf (.fin x) = .ninf := rfl

theorem fmul_fin_ninf_of_neg (x : ℚ) (h : x < 0) : fmul (.fin x) .ninf = .pinf := by
  show (if 0 < x then FV.ninf else if x < 0 then FV.pinf else FV.nan) = FV.pinf
  rw [if_neg (by exact not_lt.mpr h.le), if_pos h]

theorem fmul_fin_ninf_of_pos (x : ℚ) (h : 0 < x) : fmul (.fin x) .ninf = .ninf := by
  show (if 0 < x then FV.ninf else if x < 0 then FV.pinf else FV.nan) = FV.ninf
  rw [if_pos h]

theorem fexp_pinf (ex : ℚ → ℚ) : fexp ex .pinf = .pinf := rfl

theorem fexp_ninf (ex : ℚ → ℚ) : fexp ex .ninf = .fin 0 := rfl

theorem fadd_fin_fin (a b : ℚ) : fadd (.fin a) (.fin b) = .fin (a + b) := rfl

theorem fdiv_fin_fin_of_ne (a b : ℚ) (h : b ≠ 0) :
    fdiv (.fin a) (.fin b) = .fin (a / b) := by
  show (if b = 0 then (if a = 0 then FV.nan else if 0 < a then FV.pinf else FV.ninf)
        else FV.fin (a / b)) = FV.fin (a / b)
  rw [if_neg h]

theorem fadd_fin_pinf (x : ℚ) : fadd (.fin x) .pinf = .pinf := rfl

theorem fdiv_fin_pinf (x : ℚ) : fdiv (.fin x) .pinf = .fin 0 := rfl

theorem flog10_fin_zero (lg : ℚ → ℚ) : flog10 lg (.fin 0) = .ninf := by
  show (if (0:ℚ) < 0 then FV.nan else if (0:ℚ) = 0 then FV.ninf else FV.fin (lg 0)) = FV.ninf
  norm_num

theorem flog10_fin_pos (lg : ℚ → ℚ) (x : ℚ) (h : 0 < x) :
    flog10 lg (.fin x) = .fin (lg x) := by
  show (if x < 0 then FV.nan else if x = 0 then FV.ninf else FV.fin (lg x)) = FV.fin (lg x)
  rw [if_neg (by exact not_lt.mpr h.le), if_neg h.ne.symm]

/-- C7 (amended): the susceptibility transform of `nab_to_efficacy` is
defined at `nab == 0` and saturates to efficacy 0 there — `log10(0) = -inf`
makes the exponent `+inf` and `1 / (1 + inf) = 0` — for every positive
slope and positive finite `n_50` (the per-strain and per-vaccine catalog
values are such).  For slope `≤ 0` the saturation goes the other way, so
the claim's "for every choice of slope and n50" does not hold. -/
theorem nab_to_efficacy_sus_at_zero (lg ex : ℚ → ℚ) (slope n50 : ℚ) (symp sev : FV)
    (hs : 0 < slope) (hn : 0 < n50) :
    nab_to_efficacy lg ex [FV.fin 0] "sus" ⟨slope, n50, symp, sev⟩ = .ok [FV.fin 0] := by
  have harg : susEfficacy lg ex slope n50 (.fin 0) = .fin 0 := by
    unfold susEfficacy
    rw [flog10_fin_zero, flog10_fin_pos lg n50 hn, fsub_ninf_fin, fneg_fin,
      fmul_fin_ninf_of_neg (-slope) (by linarith), fexp_pinf, fadd_fin_pinf,
      fdiv_fin_pinf]
  have hval : nabToEfficacyVal lg ex [FV.fin 0] "sus" ⟨slope, n50, symp, sev⟩
      = [FV.fin 0] := by
    simp [nabToEfficacyVal, harg]
  simp [nab_to_efficacy, hval]

/-- C7 (counterexample): with slope `-1` and `n_50 = 1` the transform at
`nab == 0` returns efficacy 1, not 0, so the claim's universal
quantification over slope and n50 is false. -/
theorem nab_to_efficacy_zero_counterexample :
    nab_to_efficacy id id [FV.fin 0] "sus" ⟨-1, 1, FV.nan, FV.nan⟩ = .ok [FV.fin 1] ∧
    (Except.ok [FV.fin 1] : Except String (List FV)) ≠ .ok [FV.fin 0] := by
  constructor
  · have h : susEfficacy id id (-1) 1 (FV.fin 0) = FV.fin 1 := by
      unfold susEfficacy
      rw [flog10_fin_zero, flog10_fin_pos id 1 one_pos, fsub_ninf_fin, fneg_fin,
        fmul_fin_ninf_of_pos _ (by norm_num), fexp_ninf, fadd_fin_fin,
        fdiv_fin_fin_of_ne _ _ (by norm_num)]
      norm_num
    simp [nab_to_efficacy, nabToEfficacyVal, h]
  · simp

/-- C7 witness: the amended theorem evaluated at slope 1, n50 1. -/
theorem nab_to_efficacy_sus_at_zero_witness :
    (0:ℚ) < 1 ∧
    nab_to_efficacy id id [FV.fin 0] "sus" ⟨1, 1, FV.nan, FV.nan⟩ = .ok [FV.fin 0] :=
  ⟨by norm_num, nab_to_efficacy_sus_at_zero id id 1 1 FV.nan FV.nan (by norm_num) (by norm_num)⟩

/-- C3: evaluating `Strain.apply` at a concrete day with two imports and
three susceptible agents, under an RNG oracle that numpy can realize
(`np.random.choice` with its default `replace=True` may return the same
index repeatedly): the two importation indices coincide, refuting the
without-replacement / pairwise-distinct sampling the spec states. -/
theorem strain_apply_samples_with_replacement :
    strainApply [10] 2 3 10 1 [0, 1, 2] (fun _ => 0) (fun _ _ => 0)
      = .ok [([0, 0], 3)] ∧
    ¬ ([0, 0] : List ℕ).Nodup := by
  refine ⟨?_, by decide⟩
  have hf : find_day [10] 10 = [0] := by decide
  unfold strainApply
  rw [hf, List.mapM_cons, List.mapM_nil]
  have hr : randround (((2:ℕ) : ℚ) / 1) ((fun _ : ℕ => (0:ℚ)) 0) = 2 := by
    unfold randround
    norm_num
  rw [hr]
  rfl

/-- C5: on an input that is neither a string nor a dict,
`Strain.parse_strain_pars` crashes with UnboundLocalError — its `else`
branch interpolates `choicestr`, a local assigned only in the string
branch, into the message — instead of raising the intended ValueError,
while `Vaccine.parse_vaccine_pars` (whose message uses no such local)
raises the ValueError as specified; in both cases no parameter set is
produced. -/
theorem parse_pars_invalid_input_errors :
    parse_strain_pars [] [] "" SpecArg.pyNone Option.none
      = .error (.unboundLocalError "choicestr") ∧
    parse_strain_pars [] [] "" (SpecArg.pyint 3) Option.none
      = .error (.unboundLocalError "choicestr") ∧
    parse_vaccine_pars [] [] [] "" SpecArg.pyNone Option.none
      = .error (.valueError ("Could not understand type " ++ typeName SpecArg.pyNone
          ++ ", please specify as a string indexing a predefined vaccine or a dict.")) :=
  ⟨rfl, rfl, rfl⟩

/-- A single `init_nab` call on an agent whose *current* nab is defined
takes the boost branch: the stored peak is multiplied by the configured
natural-infection boost factor. -/
theorem init_nab_boost_single (draws vaccDraws : ℕ → ℚ) (pow2 : ℚ → ℚ)
    (p : PeopleNab) (a : ℕ) (v vb : ℚ)
    (hnab : (p.nab a).isSome = true) (hpeak : p.init_nab a = some v) :
    (init_nab draws vaccDraws pow2 p [a] true vb).init_nab a
      = some (v * p.nab_boost) := by
  obtain ⟨w, hw⟩ := Option.isSome_iff_exists.mp hnab
  simp [init_nab, writeList, hw, hpeak]

/-- C6 (amended): when the agent's current `nab` field is defined at the
time of the call — prior-nab membership is decided by `nab`, not by
`init_nab` — a repeat `init_nab` call with `prior_inf = true` multiplies the
existing peak by the boost factor, which strictly increases `init_nab`
whenever the peak is positive and the boost factor exceeds 1, and the boost
formula is the same on every repeat call (a third state passes through the
identical multiplication).  When the current `nab` is still NaN at the
second call (two calls with no intervening `check_nab`), the code instead
redraws, so the claim's unconditional strict increase fails. -/
theorem init_nab_repeat_boosts (draws draws2 vaccDraws : ℕ → ℚ) (pow2 pow2b : ℚ → ℚ)
    (p : PeopleNab) (a : ℕ) (v vb : ℚ)
    (hnab : (p.nab a).isSome = true) (hpeak : p.init_nab a = some v) (hv : 0 < v)
    (hboost : 1 < p.nab_boost) :
    (init_nab draws vaccDraws pow2 p [a] true vb).init_nab a = some (v * p.nab_boost) ∧
    v < v * p.nab_boost ∧
    (init_nab draws2 vaccDraws pow2b (init_nab draws vaccDraws pow2 p [a] true vb)
        [a] true vb).init_nab a = some (v * p.nab_boost * p.nab_boost) ∧
    v * p.nab_boost < v * p.nab_boost * p.nab_boost := by
  have h1 := init_nab_boost_single draws vaccDraws pow2 p a v vb hnab hpeak
  have hb0 : 0 < p.nab_boost := lt_trans one_pos hboost
  have hnab2 : ((init_nab draws vaccDraws pow2 p [a] true vb).nab a).isSome = true := hnab
  have h2 := init_nab_boost_single draws2 vaccDraws pow2b
    (init_nab draws vaccDraws pow2 p [a] true vb) a (v * p.nab_boost) vb hnab2 h1
  exact ⟨h1, (lt_mul_iff_one_lt_right hv).mpr hboost, h2,
    (lt_mul_iff_one_lt_right (mul_pos hv hb0)).mpr hboost⟩

/-- C6 (counterexample): two `init_nab` calls in immediate sequence on a
fresh agent (current nab still NaN, boost factor 2 > 1, symptomatic prior)
redraw both times — the agent is classified by the still-undefined `nab`
field — so with a second draw smaller than the first, `init_nab` drops from
8 to 2 instead of strictly increasing. -/
theorem init_nab_redraw_counterexample :
    (init_nab (fun _ => 3) (fun _ => 0) pow2C6 pC6 [0] true 1).init_nab 0 = some 8 ∧
    (init_nab (fun _ => 1) (fun _ => 0) pow2C6
        (init_nab (fun _ => 3) (fun _ => 0) pow2C6 pC6 [0] true 1) [0] true 1).init_nab 0
      = some 2 ∧
    ¬ ((2:ℚ) > 8) := by
  refine ⟨?_, ?_, by norm_num⟩
  · norm_num [init_nab, writeList, pC6, pow2C6]
  · norm_num [init_nab, writeList, pC6, pow2C6]

/-- C6 witness: the amended theorem evaluated on an agent with defined nab,
peak 2 and boost factor 3. -/
theorem init_nab_repeat_boosts_witness :
    (pC6b.nab 0).isSome = true ∧ pC6b.init_nab 0 = some 2 ∧ (0:ℚ) < 2 ∧
    1 < pC6b.nab_boost ∧
    ((init_nab (fun _ => 0) (fun _ => 0) id pC6b [0] true 1).init_nab 0
        = some (2 * pC6b.nab_boost) ∧
      2 < 2 * pC6b.nab_boost ∧
      (init_nab (fun _ => 0) (fun _ => 0) id
          (init_nab (fun _ => 0) (fun _ => 0) id pC6b [0] true 1) [0] true 1).init_nab 0
        = some (2 * pC6b.nab_boost * pC6b.nab_boost) ∧
      2 * pC6b.nab_boost < 2 * pC6b.nab_boost * pC6b.nab_boost) :=
  ⟨rfl, rfl, by norm_num, by norm_num [pC6b],
    init_nab_repeat_boosts (fun _ => 0) (fun _ => 0) (fun _ => 0) id id pC6b 0 2 1
      rfl rfl (by norm_num) (by norm_num [pC6b])⟩

/-! List bookkeeping lemmas for the fancy-indexed writes. -/

theorem mapM_option_eq_map {α β : Type} (g : α → Option β) (h : α → β)
    (l : List α) (H : ∀ a ∈ l, g a = some (h a)) : l.mapM g = some (l.map h) := by
  induction l with
  | nil => rfl
  | cons a l ih =>
    rw [List.mapM_cons, H a (List.mem_cons_self a l),
      ih (fun x hx => H x (List.mem_cons_of_mem a hx))]
    rfl

theorem writeList_map_apply (f v : ℕ → Option ℚ) (l : List ℕ) (a : ℕ) :
    writeList f (l.map (fun x => (x, v x))) a = if a ∈ l then v a else f a := by
  induction l generalizing f with
  | nil => simp [writeList]
  | cons b l ih =>
    show writeList (fun x => if x = b then v b else f x) (l.map (fun x => (x, v x))) a = _
    rw [ih]
    by_cases hal : a ∈ l
    · simp [hal]
    · by_cases hab : a = b
      · subst hab
        simp [hal]
      · simp [hal, hab]

theorem zip_map_self {α β : Type} (h : α → β) (l : List α) :
    l.zip (l.map h) = l.map (fun a => (a, h a)) := by
  induction l with
  | nil => rfl
  | cons a l ih => simp [ih]

theorem kinIndex_of_bounds (kin : List ℚ) (i : ℤ) (h0 : 0 ≤ i)
    (h1 : i < kin.length) :
    kinIndex kin i = kin.get? i.toNat ∧ (kin.get? i.toNat).isSome = true := by
  constructor
  · unfold kinIndex
    rw [if_pos ⟨h0, h1⟩]
  · have hlt : i.toNat < kin.length := by omega
    rw [List.get?_eq_get hlt]
    rfl

/-- C2 (amended): when every targeted agent's elapsed time since its most
recent immunity-conferring event (`t` minus the max of its defined dates,
computed by `tSince`) is a valid kinetics-table index, `check_nab` succeeds
and sets each targeted agent's nab to the table multiplier at that index
times its `init_nab`, leaving non-targeted agents untouched.  When some
targeted agent has neither date defined, the NaN-as-integer sentinel makes
the table lookup raise IndexError instead, and *nothing* is written — in
particular targeted agents with defined dates do not get their nab set, so
the original claim's per-call conjunction fails. -/
theorem check_nab_defined_dates (t : ℤ) (p : PeopleNab) (inds : List ℕ)
    (_hdate : ∀ a ∈ inds, (p.date_recovered a).isSome = true
      ∨ (p.date_vaccinated a).isSome = true)
    (hb : ∀ a ∈ inds, 0 ≤ tSince t p a ∧ tSince t p a < p.nab_kin.length) :
    ∃ p', check_nab t p inds = .ok p' ∧
      (∀ a ∈ inds, p'.nab a
          = (p.nab_kin.get? (tSince t p a).toNat).bind
              (fun k => (p.init_nab a).map (fun x => k * x))) ∧
      (∀ a, a ∉ inds → p'.nab a = p.nab a) := by
  have hsome : ∀ a ∈ inds, kinIndex p.nab_kin (tSince t p a)
      = some ((p.nab_kin.get? (tSince t p a).toNat).getD 0) := by
    intro a ha
    obtain ⟨he, hs⟩ := kinIndex_of_bounds p.nab_kin (tSince t p a) (hb a ha).1 (hb a ha).2
    obtain ⟨k, hk⟩ := Option.isSome_iff_exists.mp hs
    rw [he, hk]
    rfl
  have hmapM := mapM_option_eq_map (fun a => kinIndex p.nab_kin (tSince t p a))
    (fun a => (p.nab_kin.get? (tSince t p a).toNat).getD 0) inds hsome
  refine ⟨{ p with nab := writeList p.nab ((inds.zip (inds.map (fun a => (p.nab_kin.get? (tSince t p a).toNat).getD 0))).map (fun ak => (ak.1, (p.init_nab ak.1).map (fun x => ak.2 * x)))) }, ?_, ?_, ?_⟩
  · unfold check_nab
    rw [hmapM]
  · intro a ha
    show writeList p.nab ((inds.zip (inds.map _)).map _) a = _
    rw [zip_map_self, List.map_map]
    rw [show ((fun ak : ℕ × ℚ => (ak.1, (p.init_nab ak.1).map (fun x => ak.2 * x)))
        ∘ fun x => (x, (p.nab_kin.get? (tSince t p x).toNat).getD 0))
        = fun x => (x, (p.init_nab x).map
            (fun y => ((p.nab_kin.get? (tSince t p x).toNat).getD 0) * y)) from rfl]
    rw [writeList_map_apply, if_pos ha]
    obtain ⟨he, hs⟩ := kinIndex_of_bounds p.nab_kin (tSince t p a) (hb a ha).1 (hb a ha).2
    obtain ⟨k, hk⟩ := Option.isSome_iff_exists.mp hs
    rw [hk]
    rfl
  · intro a ha
    show writeList p.nab ((inds.zip (inds.map _)).map _) a = _
    rw [zip_map_self, List.map_map]
    rw [show ((fun ak : ℕ × ℚ => (ak.1, (p.init_nab ak.1).map (fun x => ak.2 * x)))
        ∘ fun x => (x, (p.nab_kin.get? (tSince t p x).toNat).getD 0))
        = fun x => (x, (p.init_nab x).map
            (fun y => ((p.nab_kin.get? (tSince t p x).toNat).getD 0) * y)) from rfl]
    rw [writeList_map_apply, if_neg ha]

/-- C2 (counterexample): with targets `[0, 1]` where agent 0 recovered on
day 0 and agent 1 has neither date defined, the whole call raises
IndexError (NaN cast to the integer sentinel indexes far out of the
3-entry kinetics table), so agent 0's nab is *not* set to the claimed
`nab_kin[2] * init_nab` — it stays NaN. -/
theorem check_nab_undated_agent_counterexample :
    (check_nab 2 pC2 [0, 1]).toOption.isNone = true ∧
    nabAfter 2 pC2 [0, 1] 0 = Option.none ∧
    (Option.none : Option ℚ) ≠ some (4/5 * 1) := by
  exact ⟨rfl, rfl, by simp⟩

/-- C2 witness: the amended theorem evaluated at day 2 on target `[0]`. -/
theorem check_nab_defined_dates_witness :
    (∀ a ∈ [0], (pC2.date_recovered a).isSome = true
      ∨ (pC2.date_vaccinated a).isSome = true) ∧
    (∀ a ∈ [0], 0 ≤ tSince 2 pC2 a ∧ tSince 2 pC2 a < pC2.nab_kin.length) ∧
    (∃ p', check_nab 2 pC2 [0] = .ok p' ∧
      (∀ a ∈ [0], p'.nab a
          = (pC2.nab_kin.get? (tSince 2 pC2 a).toNat).bind
              (fun k => (pC2.init_nab a).map (fun x => k * x))) ∧
      (∀ a, a ∉ [0] → p'.nab a = pC2.nab a)) :=
  ⟨by decide, by decide, check_nab_defined_dates 2 pC2 [0] (by decide) (by decide)⟩

/-- C4 (amended): `precompute_waning` dispatches on the popped `form`
value: a present `None` (and the explicit string `'nab_decay'`) selects the
`nab_decay` generator, but an *absent* `form` key raises KeyError — the
default applies only to a null value, not a missing field — and any other
string form raises NotImplementedError whose message enumerates the four
valid forms. -/
theorem precompute_waning_dispatch :
    (∀ (ops : TranscOps) (L : ℕ) (pars : Pars), pars.lookup "form" = Option.none →
      precompute_waning ops L pars = .error (.keyError "form")) ∧
    (∀ (ops : TranscOps) (L : ℕ) (r1 t1 r2 : ℚ),
      precompute_waning ops L [("form", PyVal.none), ("decay_rate1", PyVal.num r1),
          ("decay_time1", PyVal.num t1), ("decay_rate2", PyVal.num r2)]
        = .ok (nab_decay ops L r1 t1 r2) ∧
      precompute_waning ops L [("form", PyVal.str "nab_decay"), ("decay_rate1", PyVal.num r1),
          ("decay_time1", PyVal.num t1), ("decay_rate2", PyVal.num r2)]
        = .ok (nab_decay ops L r1 t1 r2)) ∧
    (∀ (ops : TranscOps) (L : ℕ) (rest : Pars) (s : String),
      s ≠ "nab_decay" → s ≠ "exp_decay" → s ≠ "linear_growth" → s ≠ "linear_decay" →
      precompute_waning ops L (("form", PyVal.str s) :: rest)
        = .error (.notImplementedError ("The selected functional form " ++ s
          ++ " is not implemented; choices are: nab_decay, exp_decay, linear_growth, linear_decay"))) := by
  refine ⟨?_, ?_, ?_⟩
  · intro ops L pars h
    unfold precompute_waning
    rw [h]
  · intro ops L r1 t1 r2
    exact ⟨rfl, rfl⟩
  · intro ops L rest s h1 h2 h3 h4
    have hl : List.lookup "form" (("form", PyVal.str s) :: rest) = some (PyVal.str s) := rfl
    simp [precompute_waning, hl, h1, h2, h3, h4, pyValStr]

/-- C4 (counterexample): a decay spec with the three nab_decay parameters
but no `form` key raises KeyError instead of behaving as the `nab_decay`
generator, because `pars.pop('form')` has no default. -/
theorem precompute_waning_missing_form_counterexample :
    precompute_waning opsId 3 [("decay_rate1", PyVal.num 1), ("decay_time1", PyVal.num 2),
        ("decay_rate2", PyVal.num 1)]
      = .error (.keyError "form") ∧
    (Except.error (PyErr.keyError "form") : Except PyErr (List ℚ))
      ≠ .ok (nab_decay opsId 3 1 2 1) :=
  ⟨rfl, fun h => Except.noConfusion h⟩

/-- C4 witness: the three dispatch behaviours at concrete inputs. -/
theorem precompute_waning_dispatch_witness :
    (([] : Pars).lookup "form" = Option.none ∧
      precompute_waning opsId 3 [] = .error (.keyError "form")) ∧
    precompute_waning opsId 3 [("form", PyVal.str "nab_decay"), ("decay_rate1", PyVal.num 1),
        ("decay_time1", PyVal.num 2), ("decay_rate2", PyVal.num 1)]
      = .ok (nab_decay opsId 3 1 2 1) ∧
    (("foo" : String) ≠ "nab_decay" ∧
      precompute_waning opsId 3 [("form", PyVal.str "foo")]
        = .error (.notImplementedError ("The selected functional form " ++ "foo"
          ++ " is not implemented; choices are: nab_decay, exp_decay, linear_growth, linear_decay"))) :=
  ⟨⟨rfl, precompute_waning_dispatch.1 opsId 3 [] rfl⟩,
   (precompute_waning_dispatch.2.1 opsId 3 1 2 1).2,
   ⟨by decide, precompute_waning_dispatch.2.2 opsId 3 [] "foo"
      (by decide) (by decide) (by decide) (by decide)⟩⟩

/-- The linear-decay table of the spec's example, entry by entry. -/
theorem lin10_eq : linear_decay 100 10 1 = lin10 := by
  have hL : ∀ n : ℕ, n < 100 → (linear_decay 100 10 1)[n]? = some (max (10 - (n:ℚ)) 0) := by
    intro n hn
    unfold linear_decay
    rw [List.getElem?_map, List.getElem?_range hn]
    simp
  apply List.ext_getElem?
  intro n
  by_cases h100 : n < 100
  · rw [hL n h100]
    rcases lt_or_ge n 10 with h10 | h10
    · interval_cases n <;> norm_num [lin10]
    · have h0 : max (10 - (n:ℚ)) 0 = 0 := by
        apply max_eq_right
        have hcast : (10:ℚ) ≤ (n:ℚ) := by exact_mod_cast h10
        linarith
      rw [h0]
      have hlen : ([10, 9, 8, 7, 6, 5, 4, 3, 2, 1] : List ℚ).length = 10 := rfl
      unfold lin10
      rw [List.getElem?_append_right (by rw [hlen]; omega)]
      rw [hlen, List.getElem?_replicate, if_pos (by omega)]
  · have hn : 100 ≤ n := by omega
    have e1 : (linear_decay 100 10 1)[n]? = none := by
      rw [List.getElem?_eq_none]
      simpa [linear_decay] using hn
    have e2 : lin10[n]? = none := by
      rw [List.getElem?_eq_none]
      simp [lin10]
      omega
    rw [e1, e2]

/-- C9: `precompute_waning(100, {form: linear_decay, init_val: 10, slope: 1})`
yields `[10, 9, ..., 1, 0, ..., 0]` of length 100, and in general the
`linear_decay` generator produces `max(0, init_val - slope * t)` at every
day `t < length`, hence is non-negative throughout. -/
theorem linear_decay_values :
    (∀ ops : TranscOps, precompute_waning ops 100 [("form", PyVal.str "linear_decay"),
        ("init_val", PyVal.num 10), ("slope", PyVal.num 1)] = .ok lin10) ∧
    (∀ (L : ℕ) (iv s : ℚ) (t : ℕ), t < L →
      (linear_decay L iv s)[t]? = some (max (iv - s * t) 0)) ∧
    (∀ (L : ℕ) (iv s x : ℚ), x ∈ linear_decay L iv s → 0 ≤ x) := by
  refine ⟨?_, ?_, ?_⟩
  · intro ops
    rw [show precompute_waning ops 100 [("form", PyVal.str "linear_decay"),
        ("init_val", PyVal.num 10), ("slope", PyVal.num 1)]
      = .ok (linear_decay 100 10 1) from rfl, lin10_eq]
  · intro L iv s t ht
    unfold linear_decay
    rw [List.getElem?_map, List.getElem?_range ht]
    rfl
  · intro L iv s x hx
    simp only [linear_decay, List.mem_map] at hx
    obtain ⟨t, _, rfl⟩ := hx
    exact le_max_right _ _

/-- C9 witness: the general formula evaluated at day 2 of a length-5 table. -/
theorem linear_decay_values_witness :
    2 < 5 ∧ (linear_decay 5 10 1)[2]? = some (max (10 - 1 * ((2:ℕ):ℚ)) 0) :=
  ⟨by norm_num, linear_decay_values.2.1 5 10 1 2 (by norm_num)⟩

/-- Cells the cross-immunity double loop never writes: diagonal cells and
cells whose ordered label pair is not fully covered by the preset table. -/
def protectedCell (tab : CrossTable) (cs : ℕ → String) (j i : ℕ) : Prop :=
  j = i ∨ cs i ∉ ctKeys tab ∨ cs j ∉ ctKeys tab
    ∨ ctLookup tab (cs j) (cs i) = Option.none

theorem crossStep_protected (tab : CrossTable) (cs : ℕ → String) (i : ℕ)
    (M M' : ℕ → ℕ → ℚ) (j : ℕ) (h : crossStep tab cs i M j = .ok M')
    (j' i' : ℕ) (hp : protectedCell tab cs j' i') : M' j' i' = M j' i' := by
  unfold crossStep at h
  by_cases hg : i ≠ j ∧ cs i ∈ ctKeys tab ∧ cs j ∈ ctKeys tab
  · rw [if_pos hg] at h
    cases hv : ctLookup tab (cs j) (cs i) with
    | none =>
      rw [hv] at h
      exact Except.noConfusion h
    | some v =>
      rw [hv] at h
      rw [(Except.ok.inj h).symm]
      by_cases hji : j' = j ∧ i' = i
      · exfalso
        obtain ⟨hj, hi⟩ := hji
        subst hj
        subst hi
        rcases hp with h1 | h2 | h3 | h4
        · exact hg.1 h1.symm
        · exact h2 hg.2.1
        · exact h3 hg.2.2
        · rw [hv] at h4
          exact Option.noConfusion h4
      · simp [hji]
  · rw [if_neg hg] at h
    rw [(Except.ok.inj h).symm]

theorem foldlM_inner_protected (tab : CrossTable) (cs : ℕ → String) (i : ℕ)
    (l : List ℕ) :
    ∀ (M M' : ℕ → ℕ → ℚ),
      List.foldlM (crossStep tab cs i) M l = .ok M' →
      ∀ j' i', protectedCell tab cs j' i' → M' j' i' = M j' i' := by
  induction l with
  | nil =>
    intro M M' h j' i' _
    exact congrFun (congrFun (Except.ok.inj h).symm j') i'
  | cons j l ih =>
    intro M M' h j' i' hp
    rw [List.foldlM_cons] at h
    cases hstep : crossStep tab cs i M j with
    | error e =>
      rw [hstep] at h
      exact Except.noConfusion h
    | ok M1 =>
      rw [hstep] at h
      have h' : List.foldlM (crossStep tab cs i) M1 l = .ok M' := h
      rw [ih M1 M' h' j' i' hp, crossStep_protected tab cs i M M1 j hstep j' i' hp]

theorem buildSusMatrix_protected (ts : ℕ) (cross : ℚ) (tab : CrossTable)
    (cs : ℕ → String) (M : ℕ → ℕ → ℚ)
    (h : buildSusMatrix ts cross tab cs = .ok M)
    (j i : ℕ) (hp : protectedCell tab cs j i) : M j i = initSus cross j i := by
  unfold buildSusMatrix at h
  suffices H : ∀ (l : List ℕ) (M0 M' : ℕ → ℕ → ℚ),
      List.foldlM (fun Mx x => (List.range ts).foldlM (crossStep tab cs x) Mx) M0 l
        = .ok M' → M' j i = M0 j i by
    exact H (List.range ts) (initSus cross) M h
  intro l
  induction l with
  | nil =>
    intro M0 M' h'
    exact congrFun (congrFun (Except.ok.inj h').symm j) i
  | cons x l ih =>
    intro M0 M' h'
    rw [List.foldlM_cons] at h'
    cases hstep : (List.range ts).foldlM (crossStep tab cs x) M0 with
    | error e =>
      rw [hstep] at h'
      exact Except.noConfusion h'
    | ok M1 =>
      rw [hstep] at h'
      have h'' : List.foldlM (fun Mx x => (List.range ts).foldlM (crossStep tab cs x) Mx) M1 l
          = .ok M' := h'
      rw [ih M1 M' h'', foldlM_inner_protected tab cs x (List.range ts) M0 M1 hstep j i hp]

/-- C8: whenever the `init_immunity` double loop completes and stores a
susceptibility matrix, every diagonal entry is 1 (the loop skips `i == j`,
so `fill_diagonal`'s 1 survives) and every off-diagonal entry whose ordered
strain-label pair is not fully covered by the preset cross-immunity table —
either label missing from the table's keys, or the inner row missing the
challenging label — keeps the configured default cross-immunity value. -/
theorem init_immunity_sus_matrix (ts : ℕ) (cross : ℚ) (tab : CrossTable)
    (cs : ℕ → String) (M : ℕ → ℕ → ℚ)
    (hok : buildSusMatrix ts cross tab cs = .ok M) :
    (∀ j, M j j = 1) ∧
    (∀ j i, j ≠ i →
      (cs i ∉ ctKeys tab ∨ cs j ∉ ctKeys tab ∨ ctLookup tab (cs j) (cs i) = Option.none) →
      M j i = cross) := by
  constructor
  · intro j
    have hd := buildSusMatrix_protected ts cross tab cs M hok j j (Or.inl rfl)
    simpa [initSus] using hd
  · intro j i hji hcov
    have hc := buildSusMatrix_protected ts cross tab cs M hok j i (Or.inr hcov)
    rw [hc]
    simp [initSus, hji]

/-- C8 witness: a two-strain build where strain 1's label is not in the
preset table; the build succeeds, the diagonal is 1 and the uncovered
off-diagonal entry keeps the default 1/3. -/
theorem init_immunity_sus_matrix_witness :
    buildSusMatrix 2 (1/3) tabC8 csC8 = .ok MC8 ∧
    MC8 1 1 = 1 ∧ (1:ℕ) ≠ 0 ∧ csC8 1 ∉ ctKeys tabC8 ∧ MC8 1 0 = 1/3 := by
  have hok : buildSusMatrix 2 (1/3) tabC8 csC8 = .ok MC8 := rfl
  have h := init_immunity_sus_matrix 2 (1/3) tabC8 csC8 MC8 hok
  exact ⟨hok, h.1 1, by decide, by decide,
    h.2 1 0 (by decide) (Or.inr (Or.inl (by decide)))⟩

/-! Write-trace bookkeeping for `check_immunity`. -/

theorem applyWrite_get (p : PeopleImm) (w : ImmWrite) (f : ImmField) (s a : ℕ) :
    getField (applyWrite p w) f s a
      = if w.target = f ∧ w.strain = s ∧ w.agent = a then w.value
        else getField p f s a := by
  cases w with
  | mk tgt ws wa wv wb =>
    cases tgt <;> cases f <;> simp [applyWrite, getField]

theorem lastWriteTo_cons (w : ImmWrite) (tr : List ImmWrite) (f : ImmField) (s a : ℕ) :
    lastWriteTo (w :: tr) f s a
      = (lastWriteTo tr f s a).or
          (if w.target = f ∧ w.strain = s ∧ w.agent = a then some w else Option.none) := by
  unfold lastWriteTo
  rw [List.reverse_cons, List.find?_append]
  congr 1
  by_cases hw : w.target = f ∧ w.strain = s ∧ w.agent = a
  · rw [if_pos hw]
    apply List.find?_cons_of_pos
    simp [hw.1, hw.2.1, hw.2.2]
  · rw [if_neg hw]
    rw [List.find?_cons_of_neg]
    · rfl
    · simp only [Bool.and_eq_true, decide_eq_true_eq]
      exact fun hc => hw ⟨hc.1.1, hc.1.2, hc.2⟩

theorem applyTrace_get (tr : List ImmWrite) :
    ∀ (p : PeopleImm) (f : ImmField) (s a : ℕ),
      getField (applyTrace p tr) f s a
        = ((lastWriteTo tr f s a).map ImmWrite.value).getD (getField p f s a) := by
  induction tr with
  | nil =>
    intro p f s a
    rfl
  | cons w tr ih =>
    intro p f s a
    show getField (applyTrace (applyWrite p w) tr) f s a = _
    rw [ih (applyWrite p w) f s a, lastWriteTo_cons]
    cases hlw : lastWriteTo tr f s a with
    | some w' =>
      rw [Option.or_some]
      rfl
    | none =>
      rw [Option.none_or, applyWrite_get]
      by_cases hw : w.target = f ∧ w.strain = s ∧ w.agent = a
      · simp only [if_pos hw]
        rfl
      · simp only [if_neg hw]

theorem lastWriteTo_eq_none (tr : List ImmWrite) (f : ImmField) (s a : ℕ)
    (h : ∀ w ∈ tr, ¬(w.target = f ∧ w.strain = s ∧ w.agent = a)) :
    lastWriteTo tr f s a = Option.none := by
  unfold lastWriteTo
  rw [List.find?_eq_none]
  intro x hx
  simp only [Bool.and_eq_true, decide_eq_true_eq]
  exact fun hc => h x (List.mem_reverse.mp hx) ⟨hc.1.1, hc.1.2, hc.2⟩

theorem applyTrace_frame (tr : List ImmWrite) (p : PeopleImm) (f : ImmField) (s a : ℕ)
    (h : ∀ w ∈ tr, ¬(w.target = f ∧ w.strain = s ∧ w.agent = a)) :
    getField (applyTrace p tr) f s a = getField p f s a := by
  rw [applyTrace_get, lastWriteTo_eq_none tr f s a h]
  rfl

theorem lastWriteTo_append (t1 t2 : List ImmWrite) (f : ImmField) (s a : ℕ) :
    lastWriteTo (t1 ++ t2) f s a = (lastWriteTo t2 f s a).or (lastWriteTo t1 f s a) := by
  unfold lastWriteTo
  rw [List.reverse_append, List.find?_append]

theorem mem_mkWrites {w : ImmWrite} {f : ImmField} {strain : ℕ} {b : ImmBlock}
    {agents : List ℕ} {vals : List FV} (h : w ∈ mkWrites f strain b agents vals) :
    w.target = f ∧ w.strain = strain ∧ w.agent ∈ agents := by
  unfold mkWrites at h
  obtain ⟨⟨x, v⟩, hmem, rfl⟩ := List.mem_map.mp h
  exact ⟨rfl, rfl, (List.of_mem_zip hmem).1⟩

theorem zip_replicate_self {α β : Type} (l : List α) (v : β) :
    l.zip (List.replicate l.length v) = l.map (fun a => (a, v)) := by
  induction l with
  | nil => rfl
  | cons a l ih => simp [List.replicate_succ, ih]

theorem mkWrites_const (f : ImmField) (strain : ℕ) (b : ImmBlock)
    (agents : List ℕ) (v : FV) :
    mkWrites f strain b agents (List.replicate agents.length v)
      = agents.map (fun a => ⟨f, strain, a, v, b⟩) := by
  unfold mkWrites
  rw [zip_replicate_self, List.map_map]
  rfl

theorem nabToEfficacyVal_symp (lg ex : ℚ → ℚ) (nab : List FV) (args : NabEff) :
    nabToEfficacyVal lg ex nab "symp" args = List.replicate nab.length args.symp := rfl

theorem nabToEfficacyVal_sev (lg ex : ℚ → ℚ) (nab : List FV) (args : NabEff) :
    nabToEfficacyVal lg ex nab "sev" args = List.replicate nab.length args.sev := rfl

theorem find?_eq_self_of_mem {a : ℕ} (l : List ℕ) (h : a ∈ l) :
    l.find? (fun x => decide (x = a)) = some a := by
  induction l with
  | nil => cases h
  | cons b l ih =>
    by_cases hb : b = a
    · subst hb
      rw [List.find?_cons_of_pos _ (by simp)]
    · rw [List.find?_cons_of_neg _ (by simpa using hb)]
      exact ih (by
        rcases List.mem_cons.mp h with h' | h'
        · exact absurd h'.symm hb
        · exact h')

theorem lastWriteTo_map_block (f : ImmField) (strain : ℕ) (b : ImmBlock)
    (agents : List ℕ) (v : FV) (a : ℕ) (ha : a ∈ agents) :
    lastWriteTo (agents.map (fun x => (⟨f, strain, x, v, b⟩ : ImmWrite))) f strain a
      = some ⟨f, strain, a, v, b⟩ := by
  unfold lastWriteTo
  rw [← List.map_reverse, List.find?_map]
  have hpred : ((fun w : ImmWrite => decide (w.target = f) && decide (w.strain = strain)
      && decide (w.agent = a)) ∘ fun x => (⟨f, strain, x, v, b⟩ : ImmWrite))
      = fun x => decide (x = a) := by
    funext x
    simp
  rw [hpred, find?_eq_self_of_mem _ (List.mem_reverse.mpr ha)]
  rfl

theorem lastWriteTo_map_block_ne (f f' : ImmField) (strain s : ℕ) (b : ImmBlock)
    (agents : List ℕ) (v : FV) (a : ℕ) (hne : f' ≠ f) :
    lastWriteTo (agents.map (fun x => (⟨f', strain, x, v, b⟩ : ImmWrite))) f s a
      = Option.none := by
  apply lastWriteTo_eq_none
  intro w hw
  obtain ⟨x, hx, rfl⟩ := List.mem_map.mp hw
  exact fun hc => hne hc.1

theorem agentsWhere_subset_inds (p : PeopleImm) (inds : List ℕ) (g : ℕ → Bool)
    (a : ℕ) (h : a ∈ agentsWhere p (fun x => decide (x ∈ inds) && g x)) : a ∈ inds := by
  have hb := (List.mem_filter.mp h).2
  rw [Bool.and_eq_true] at hb
  exact of_decide_eq_true hb.1

theorem mem_agentsWhere (p : PeopleImm) (g : ℕ → Bool) (a : ℕ)
    (ha : a < p.npop) (hg : g a = true) : a ∈ agentsWhere p g :=
  List.mem_filter.mpr ⟨List.mem_range.mpr ha, hg⟩

theorem trace_sus_mode_fields (lg ex : ℚ → ℚ) (p : PeopleImm) (strain : ℕ)
    (inds : List ℕ) (imm : ImmPars) (args vxArgs : NabEff) (vs : ℚ) (w : ImmWrite)
    (hw : w ∈ checkImmunityTrace lg ex p strain true inds imm args vxArgs vs) :
    w.target = .sus ∧ w.strain = strain := by
  simp only [checkImmunityTrace, if_true] at hw
  rcases List.mem_append.mp hw with hw' | hw'
  · rcases List.mem_append.mp hw' with hw'' | hw''
    · exact ⟨(mem_mkWrites hw'').1, (mem_mkWrites hw'').2.1⟩
    · exact ⟨(mem_mkWrites hw'').1, (mem_mkWrites hw'').2.1⟩
  · exact ⟨(mem_mkWrites hw').1, (mem_mkWrites hw').2.1⟩

theorem trace_disease_mode_fields (lg ex : ℚ → ℚ) (p : PeopleImm) (strain : ℕ)
    (inds : List ℕ) (imm : ImmPars) (args vxArgs : NabEff) (vs : ℚ) (w : ImmWrite)
    (hw : w ∈ checkImmunityTrace lg ex p strain false inds imm args vxArgs vs) :
    (w.target = .symp ∨ w.target = .sev) ∧ w.strain = strain ∧ w.agent ∈ inds := by
  simp only [checkImmunityTrace, Bool.false_eq_true, if_false] at hw
  rcases List.mem_append.mp hw with hw1 | hw1
  · rcases List.mem_append.mp hw1 with hw2 | hw2
    · rcases List.mem_append.mp hw2 with hw3 | hw3
      · exact ⟨Or.inl (mem_mkWrites hw3).1, (mem_mkWrites hw3).2.1,
          agentsWhere_subset_inds p inds _ _ (mem_mkWrites hw3).2.2⟩
      · exact ⟨Or.inr (mem_mkWrites hw3).1, (mem_mkWrites hw3).2.1,
          agentsWhere_subset_inds p inds _ _ (mem_mkWrites hw3).2.2⟩
    · exact ⟨Or.inl (mem_mkWrites hw2).1, (mem_mkWrites hw2).2.1,
        agentsWhere_subset_inds p inds _ _ (mem_mkWrites hw2).2.2⟩
  · exact ⟨Or.inr (mem_mkWrites hw1).1, (mem_mkWrites hw1).2.1,
      agentsWhere_subset_inds p inds _ _ (mem_mkWrites hw1).2.2⟩

/-- C10: `check_immunity` mutates only the efficacy arrays of its active
mode.  In susceptibility mode (`sus = true`) it never touches `symp_imm` or
`sev_imm`, and touches `sus_imm` only in the evaluated strain's row; in
disease-severity mode (`sus = false`) it never touches `sus_imm`, and
touches `symp_imm` / `sev_imm` only in the evaluated strain's row and only
for agents in the supplied index set. -/
theorem check_immunity_frame (lg ex : ℚ → ℚ) (p : PeopleImm) (strain : ℕ)
    (inds : List ℕ) (imm : ImmPars) (args vxArgs : NabEff) (vs : ℚ) :
    (∀ s a, (check_immunity lg ex p strain true inds imm args vxArgs vs).symp_imm s a
        = p.symp_imm s a) ∧
    (∀ s a, (check_immunity lg ex p strain true inds imm args vxArgs vs).sev_imm s a
        = p.sev_imm s a) ∧
    (∀ s a, s ≠ strain →
      (check_immunity lg ex p strain true inds imm args vxArgs vs).sus_imm s a
        = p.sus_imm s a) ∧
    (∀ s a, (check_immunity lg ex p strain false inds imm args vxArgs vs).sus_imm s a
        = p.sus_imm s a) ∧
    (∀ s a, s ≠ strain ∨ a ∉ inds →
      (check_immunity lg ex p strain false inds imm args vxArgs vs).symp_imm s a
        = p.symp_imm s a) ∧
    (∀ s a, s ≠ strain ∨ a ∉ inds →
      (check_immunity lg ex p strain false inds imm args vxArgs vs).sev_imm s a
        = p.sev_imm s a) := by
  refine ⟨?_, ?_, ?_, ?_, ?_, ?_⟩
  · intro s a
    exact applyTrace_frame _ p .symp s a (fun w hw hc => by
      have h1 := (trace_sus_mode_fields lg ex p strain inds imm args vxArgs vs w hw).1
      rw [h1] at hc
      exact ImmField.noConfusion hc.1)
  · intro s a
    exact applyTrace_frame _ p .sev s a (fun w hw hc => by
      have h1 := (trace_sus_mode_fields lg ex p strain inds imm args vxArgs vs w hw).1
      rw [h1] at hc
      exact ImmField.noConfusion hc.1)
  · intro s a hs
    exact applyTrace_frame _ p .sus s a (fun w hw hc => by
      have h2 := (trace_sus_mode_fields lg ex p strain inds imm args vxArgs vs w hw).2
      exact hs (h2.symm.trans hc.2.1).symm)
  · intro s a
    exact applyTrace_frame _ p .sus s a (fun w hw hc => by
      have h1 := (trace_disease_mode_fields lg ex p strain inds imm args vxArgs vs w hw).1
      rcases h1 with h1 | h1 <;> rw [h1] at hc <;> exact ImmField.noConfusion hc.1)
  · intro s a hsa
    exact applyTrace_frame _ p .symp s a (fun w hw hc => by
      have h := trace_disease_mode_fields lg ex p strain inds imm args vxArgs vs w hw
      rcases hsa with hs | ha
      · exact hs (h.2.1.symm.trans hc.2.1).symm
      · rw [hc.2.2] at h
        exact ha h.2.2)
  · intro s a hsa
    exact applyTrace_frame _ p .sev s a (fun w hw hc => by
      have h := trace_disease_mode_fields lg ex p strain inds imm args vxArgs vs w hw
      rcases hsa with hs | ha
      · exact hs (h.2.1.symm.trans hc.2.1).symm
      · rw [hc.2.2] at h
        exact ha h.2.2)

/-- C10 witness: the frame conditions instantiated on the concrete
dual-status agent state, a non-evaluated strain row and an agent outside
the target set. -/
theorem check_immunity_frame_witness :
    ((check_immunity id id pC1 0 true [0] immC1 argsC1 argsC1 1).symp_imm 0 0
        = pC1.symp_imm 0 0) ∧
    ((1:ℕ) ≠ 0 ∧
      (check_immunity id id pC1 0 true [0] immC1 argsC1 argsC1 1).sus_imm 1 0
        = pC1.sus_imm 1 0) ∧
    ((check_immunity id id pC1 0 false [0] immC1 argsC1 argsC1 1).sus_imm 0 0
        = pC1.sus_imm 0 0) ∧
    ((5:ℕ) ∉ [0] ∧
      (check_immunity id id pC1 0 false [0] immC1 argsC1 argsC1 1).symp_imm 0 5
        = pC1.symp_imm 0 5) :=
  ⟨(check_immunity_frame id id pC1 0 [0] immC1 argsC1 argsC1 1).1 0 0,
   ⟨by decide, (check_immunity_frame id id pC1 0 [0] immC1 argsC1 argsC1 1).2.2.1 1 0 (by decide)⟩,
   (check_immunity_frame id id pC1 0 [0] immC1 argsC1 argsC1 1).2.2.2.1 0 0,
   ⟨by decide, (check_immunity_frame id id pC1 0 [0] immC1 argsC1 argsC1 1).2.2.2.2.1 0 5
      (Or.inr (by decide))⟩⟩

/-- C1 (amended): in disease-severity mode, for an agent that is both
vaccinated and previously recovered, *both* blocks write `symp_imm` and
`sev_imm` for the evaluated strain, and the previously-recovered block's
write comes last in program order — the reverse of the claimed ordering —
so the recovered-branch computation wins.  Because the symp/sev efficacy
transform is a constant fill that ignores its scaled-nab input, the final
values (`nab_eff`'s symp/sev parameters) numerically coincide with what the
vaccinated branch computed. -/
theorem check_immunity_dual_agent_recovered_wins (lg ex : ℚ → ℚ) (p : PeopleImm)
    (strain : ℕ) (inds : List ℕ) (imm : ImmPars) (args vxArgs : NabEff) (vs : ℚ)
    (a : ℕ) (ha : a < p.npop) (hin : a ∈ inds) (hv : p.vaccinated a = true)
    (hr : wasInfP p a = true) :
    lastWriteTo (checkImmunityTrace lg ex p strain false inds imm args vxArgs vs)
        .symp strain a = some ⟨.symp, strain, a, args.symp, .infRec⟩ ∧
    lastWriteTo (checkImmunityTrace lg ex p strain false inds imm args vxArgs vs)
        .sev strain a = some ⟨.sev, strain, a, args.sev, .infRec⟩ ∧
    (⟨.symp, strain, a, args.symp, .infVacc⟩ : ImmWrite)
      ∈ checkImmunityTrace lg ex p strain false inds imm args vxArgs vs ∧
    (check_immunity lg ex p strain false inds imm args vxArgs vs).symp_imm strain a
      = args.symp ∧
    (check_immunity lg ex p strain false inds imm args vxArgs vs).sev_imm strain a
      = args.sev := by
  have hivacc : a ∈ agentsWhere p (fun x => decide (x ∈ inds) && p.vaccinated x) :=
    mem_agentsWhere p _ a ha (by rw [Bool.and_eq_true]; exact ⟨decide_eq_true hin, hv⟩)
  have hwinf : a ∈ agentsWhere p (fun x => decide (x ∈ inds) && wasInfP p x) :=
    mem_agentsWhere p _ a ha (by rw [Bool.and_eq_true]; exact ⟨decide_eq_true hin, hr⟩)
  have htr : checkImmunityTrace lg ex p strain false inds imm args vxArgs vs
      = ((agentsWhere p (fun x => decide (x ∈ inds) && p.vaccinated x)).map
            (fun x => (⟨.symp, strain, x, args.symp, .infVacc⟩ : ImmWrite))
          ++ (agentsWhere p (fun x => decide (x ∈ inds) && p.vaccinated x)).map
            (fun x => (⟨.sev, strain, x, args.sev, .infVacc⟩ : ImmWrite)))
        ++ (agentsWhere p (fun x => decide (x ∈ inds) && wasInfP p x)).map
            (fun x => (⟨.symp, strain, x, args.symp, .infRec⟩ : ImmWrite))
        ++ (agentsWhere p (fun x => decide (x ∈ inds) && wasInfP p x)).map
            (fun x => (⟨.sev, strain, x, args.sev, .infRec⟩ : ImmWrite)) := by
    simp only [checkImmunityTrace, Bool.false_eq_true, if_false,
      nabToEfficacyVal_symp, nabToEfficacyVal_sev, List.length_map, mkWrites_const]
  have hsymp : lastWriteTo (checkImmunityTrace lg ex p strain false inds imm args vxArgs vs)
      .symp strain a = some ⟨.symp, strain, a, args.symp, .infRec⟩ := by
    rw [htr, lastWriteTo_append, lastWriteTo_append,
      lastWriteTo_map_block_ne .symp .sev strain strain .infRec _ args.sev a
        (fun hcc => ImmField.noConfusion hcc),
      lastWriteTo_map_block .symp strain .infRec _ args.symp a hwinf,
      Option.none_or, Option.or_some]
  have hsev : lastWriteTo (checkImmunityTrace lg ex p strain false inds imm args vxArgs vs)
      .sev strain a = some ⟨.sev, strain, a, args.sev, .infRec⟩ := by
    rw [htr, lastWriteTo_append,
      lastWriteTo_map_block .sev strain .infRec _ args.sev a hwinf,
      Option.or_some]
  refine ⟨hsymp, hsev, ?_, ?_, ?_⟩
  · rw [htr]
    exact List.mem_append_left _ (List.mem_append_left _
      (List.mem_append_left _ (List.mem_map.mpr ⟨a, hivacc, rfl⟩)))
  · have hg := applyTrace_get (checkImmunityTrace lg ex p strain false inds imm args vxArgs vs)
      p .symp strain a
    rw [hsymp] at hg
    exact hg
  · have hg := applyTrace_get (checkImmunityTrace lg ex p strain false inds imm args vxArgs vs)
      p .sev strain a
    rw [hsev] at hg
    exact hg

/-- C1 (counterexample): on a population with one agent who is both
vaccinated and previously recovered, the last write to `symp_imm[0, 0]`
emitted by `check_immunity`'s disease-severity mode comes from the
previously-recovered block, not the vaccinated block — refuting the claim
that the vaccinated-branch computation is the last write. -/
theorem check_immunity_last_write_counterexample :
    (lastWriteTo (checkImmunityTrace id id pC1 0 false [0] immC1 argsC1 argsC1 1)
        .symp 0 0).map ImmWrite.block = some ImmBlock.infRec ∧
    ImmBlock.infRec ≠ ImmBlock.infVacc := by
  exact ⟨rfl, by decide⟩

/-- C1 witness: the amended theorem on the concrete dual-status agent. -/
theorem check_immunity_dual_agent_recovered_wins_witness :
    (0 < pC1.npop ∧ (0:ℕ) ∈ [0] ∧ pC1.vaccinated 0 = true ∧ wasInfP pC1 0 = true) ∧
    (lastWriteTo (checkImmunityTrace id id pC1 0 false [0] immC1 argsC1 argsC1 1)
        .symp 0 0 = some ⟨.symp, 0, 0, argsC1.symp, .infRec⟩ ∧
      lastWriteTo (checkImmunityTrace id id pC1 0 false [0] immC1 argsC1 argsC1 1)
        .sev 0 0 = some ⟨.sev, 0, 0, argsC1.sev, .infRec⟩ ∧
      (⟨.symp, 0, 0, argsC1.symp, .infVacc⟩ : ImmWrite)
        ∈ checkImmunityTrace id id pC1 0 false [0] immC1 argsC1 argsC1 1 ∧
      (check_immunity id id pC1 0 false [0] immC1 argsC1 argsC1 1).symp_imm 0 0
        = argsC1.symp ∧
      (check_immunity id id pC1 0 false [0] immC1 argsC1 argsC1 1).sev_imm 0 0
        = argsC1.sev) :=
  ⟨⟨by decide, by decide, rfl, rfl⟩,
    check_immunity_dual_agent_recovered_wins id id pC1 0 [0] immC1 argsC1 argsC1 1 0
      (by decide) (by decide) rfl rfl⟩

end Covasim
